import Mathlib

/-!
Shallow embedding of the dubizzler repository's core logic
(`src/dubizzler-scraper.py` and `src/dubizzler.py`), together with
theorems settling the specification claims about it.

Modelling conventions:
* Python strings are Lean `String`s; `str.strip()` is `trimStr`,
  `a in b` (substring test) is `strContains b a`; string helpers are
  implemented over `List Char` so that all definitions reduce in the
  kernel.
* Character classes of the regular expressions (`\d`, `\s`, `\w`) and of
  `str.lower()` / `str.isdigit()` are modelled over their ASCII meaning,
  which is the range exercised by this scraper's inputs.
* Machine-level hashing (`hashlib.md5`) is embedded as the full MD5
  algorithm over `Nat` byte lists, with 32-bit arithmetic written as
  explicit `% 2 ^ 32`.
* Fallible code (Python code that can raise) returns `Option`; `none`
  models an uncaught exception.
-/

set_option maxRecDepth 20000

namespace Dubizzler

/-- Python's substring test `needle in hay` on strings. -/
def strContains (hay needle : String) : Bool :=
  decide (needle.data <:+: hay.data)

/-- The fixed ordered brand catalog of `extract_car_brand`
(`dubizzler-scraper.py` lines 17-25), source order preserved, including
the repeated "Jeep" entry. -/
def brands : List String :=
  ["Toyota", "Honda", "Ford", "Chevrolet", "Nissan", "Hyundai", "Kia", "Mazda",
   "Volkswagen", "BMW", "Mercedes", "Audi", "Lexus", "Jeep", "Subaru", "Volvo",
   "Mitsubishi", "Suzuki", "Peugeot", "Renault", "Fiat", "Citroen", "Opel",
   "Skoda", "Seat", "Land Rover", "Range Rover", "Jaguar", "Porsche", "Ferrari",
   "Lamborghini", "Maserati", "Bentley", "Rolls Royce", "Mini", "Infiniti",
   "Acura", "Cadillac", "Lincoln", "Buick", "GMC", "Dodge", "Chrysler", "Jeep",
   "Ram", "Tesla", "BYD", "Chery", "Geely", "MG", "Proton", "Daihatsu", "Isuzu"]

/-- ASCII lower-casing of one character (Python `str.lower()` over the
ASCII range this scraper handles). -/
def charLower (c : Char) : Char :=
  if 'A' ≤ c && c ≤ 'Z' then Char.ofNat (c.toNat + 32) else c

/-- Python `s.lower()`. -/
def strLower (s : String) : String := String.mk (s.data.map charLower)

/-- Python `s.strip()`: remove leading and trailing whitespace. -/
def trimStr (s : String) : String :=
  String.mk
    (((s.data.dropWhile Char.isWhitespace).reverse.dropWhile Char.isWhitespace).reverse)

/-- Whitespace-run tokenizer over characters (Python `s.split()`);
`acc` holds the reversed characters of the token being read. -/
def tokensAux : List Char → List Char → List String
  | acc, [] => if acc.isEmpty then [] else [String.mk acc.reverse]
  | acc, c :: rest =>
    if c.isWhitespace then
      if acc.isEmpty then tokensAux [] rest
      else String.mk acc.reverse :: tokensAux [] rest
    else tokensAux (c :: acc) rest

/-- Python's `s.split()`: split on whitespace runs, dropping empty pieces. -/
def splitTokens (s : String) : List String := tokensAux [] s.data

/-- `extract_car_brand` (`dubizzler-scraper.py` lines 11-33).
`none` models the `IndexError` raised by `car_name.split()[0]` when the
title has no whitespace-delimited token. -/
def extract_car_brand (car_name : String) : Option String :=
  if car_name = "N/A" then some "N/A"
  else
    match brands.find? (fun b => strContains (strLower car_name) (strLower b)) with
    | some b => some b
    | none =>
      match splitTokens car_name with
      | [] => none
      | w :: _ => some w

/-- Result type of `parse_listing_time` and of the two per-card
"days on website" computations: either the `"N/A"` sentinel or a number
of days (Python int or float, embedded as `ℚ`). -/
inductive DaysVal where
  | na : DaysVal
  | num : ℚ → DaysVal
deriving DecidableEq

/-- Greedy one-or-more character-class matcher: the `\d+` / `\s+` / `\w+`
pieces of the listing-time pattern.  Because consecutive classes in that
pattern are disjoint and the trailing literal starts with a word
character, greedy matching without backtracking is equivalent to the
regex engine's behaviour. -/
def takeWhile1 (p : Char → Bool) (l : List Char) : Option (List Char × List Char) :=
  match l.takeWhile p with
  | [] => none
  | t => some (t, l.dropWhile p)

/-- Literal matcher: consumes `lit` from the head of `l`. -/
def matchLit : List Char → List Char → Option (List Char)
  | [], l => some l
  | _, [] => none
  | a :: as, b :: bs => if a = b then matchLit as bs else none

/-- Python `int()` on a digit string. -/
def digitsToNat (l : List Char) : ℕ :=
  l.foldl (fun n c => 10 * n + (c.toNat - 48)) 0

/-- `re.match(r'(\d+)\s+(\w+)\s+ago', s)` (`dubizzler-scraper.py` line 41):
anchored at the start only; returns the captured integer and unit word.
Anything may follow the literal `ago`. -/
def reMatchTime (s : String) : Option (ℕ × String) := do
  let (ds, r1) ← takeWhile1 Char.isDigit s.data
  let (_, r2) ← takeWhile1 Char.isWhitespace r1
  let (w, r3) ← takeWhile1 (fun c => c.isAlphanum || c = '_') r2
  let (_, r4) ← takeWhile1 Char.isWhitespace r3
  let _ ← matchLit ['a', 'g', 'o'] r4
  some (digitsToNat ds, String.mk w)

/-- Python's bankers rounding to an integer (`round(x)`). -/
def roundHalfEven (q : ℚ) : ℤ :=
  let f := Int.floor q
  let r := q - f
  if r < 1 / 2 then f
  else if 1 / 2 < r then f + 1
  else if f % 2 = 0 then f else f + 1

/-- Python's `round(x, 2)`. -/
def round2 (q : ℚ) : ℚ := (roundHalfEven (q * 100) : ℚ) / 100

/-- `parse_listing_time` (`dubizzler-scraper.py` lines 35-62). -/
def parse_listing_time (listing_time : String) : DaysVal :=
  if listing_time = "N/A" then .na
  else
    match reMatchTime listing_time with
    | none => .na
    | some (value, unit) =>
      if strContains unit "minute" then .num (round2 ((value : ℚ) / (24 * 60)))
      else if strContains unit "hour" then .num (round2 ((value : ℚ) / 24))
      else if strContains unit "day" then .num (value : ℚ)
      else if strContains unit "week" then .num ((value : ℚ) * 7)
      else if strContains unit "month" then .num ((value : ℚ) * 30)
      else if strContains unit "year" then .num ((value : ℚ) * 365)
      else .na

/-! ### MD5 and the listing fingerprint

`car_id = hashlib.md5(car_details.encode()).hexdigest()`
(`dubizzler-scraper.py` lines 126-129 and 228-230).  The hash is the
standard MD5 algorithm (RFC 1321) over the UTF-8 bytes of
`f"{dealer_code}_{car_name}_{year}_{kilometrage}"`, embedded here over
`Nat` byte lists with 32-bit arithmetic taken `% 2 ^ 32`. -/

/-- UTF-8 encoding of one code point (Python `str.encode()`). -/
def utf8Char (c : Char) : List ℕ :=
  let n := c.toNat
  if n < 128 then [n]
  else if n < 2048 then [192 + n / 64, 128 + n % 64]
  else if n < 65536 then [224 + n / 4096, 128 + n / 64 % 64, 128 + n % 64]
  else [240 + n / 262144, 128 + n / 4096 % 64, 128 + n / 64 % 64, 128 + n % 64]

/-- UTF-8 encoding of a string as a byte list. -/
def utf8Encode (s : String) : List ℕ :=
  (s.data.map utf8Char).flatten

/-- 32-bit left rotation (for values `< 2 ^ 32`). -/
def rotl32 (x s : ℕ) : ℕ :=
  (x * 2 ^ s + x / 2 ^ (32 - s)) % 2 ^ 32

/-- Bitwise complement on the low 32 bits (for values `< 2 ^ 32`). -/
def not32 (x : ℕ) : ℕ := 2 ^ 32 - 1 - x % 2 ^ 32

/-- The 64 MD5 sine-derived round constants. -/
def md5K : List ℕ :=
  [0xd76aa478, 0xe8c7b756, 0x242070db, 0xc1bdceee,
   0xf57c0faf, 0x4787c62a, 0xa8304613, 0xfd469501,
   0x698098d8, 0x8b44f7af, 0xffff5bb1, 0x895cd7be,
   0x6b901122, 0xfd987193, 0xa679438e, 0x49b40821,
   0xf61e2562, 0xc040b340, 0x265e5a51, 0xe9b6c7aa,
   0xd62f105d, 0x02441453, 0xd8a1e681, 0xe7d3fbc8,
   0x21e1cde6, 0xc33707d6, 0xf4d50d87, 0x455a14ed,
   0xa9e3e905, 0xfcefa3f8, 0x676f02d9, 0x8d2a4c8a,
   0xfffa3942, 0x8771f681, 0x6d9d6122, 0xfde5380c,
   0xa4beea44, 0x4bdecfa9, 0xf6bb4b60, 0xbebfbc70,
   0x289b7ec6, 0xeaa127fa, 0xd4ef3085, 0x04881d05,
   0xd9d4d039, 0xe6db99e5, 0x1fa27cf8, 0xc4ac5665,
   0xf4292244, 0x432aff97, 0xab9423a7, 0xfc93a039,
   0x655b59c3, 0x8f0ccc92, 0xffeff47d, 0x85845dd1,
   0x6fa87e4f, 0xfe2ce6e0, 0xa3014314, 0x4e0811a1,
   0xf7537e82, 0xbd3af235, 0x2ad7d2bb, 0xeb86d391]

/-- The 64 MD5 per-round left-rotation amounts. -/
def md5S : List ℕ :=
  [7, 12, 17, 22, 7, 12, 17, 22, 7, 12, 17, 22, 7, 12, 17, 22,
   5, 9, 14, 20, 5, 9, 14, 20, 5, 9, 14, 20, 5, 9, 14, 20,
   4, 11, 16, 23, 4, 11, 16, 23, 4, 11, 16, 23, 4, 11, 16, 23,
   6, 10, 15, 21, 6, 10, 15, 21, 6, 10, 15, 21, 6, 10, 15, 21]

/-- Little-endian 32-bit word `g` of a 64-byte block. -/
def md5Word (block : List ℕ) (g : ℕ) : ℕ :=
  block.getD (4 * g) 0 + 256 * block.getD (4 * g + 1) 0 +
    65536 * block.getD (4 * g + 2) 0 + 16777216 * block.getD (4 * g + 3) 0

/-- One MD5 round (round index `i`, state `(A, B, C, D)`). -/
def md5Round (block : List ℕ) (st : ℕ × ℕ × ℕ × ℕ) (i : ℕ) : ℕ × ℕ × ℕ × ℕ :=
  let (a, b, c, d) := st
  let fg : ℕ × ℕ :=
    if i < 16 then ((b &&& c) ||| (not32 b &&& d), i)
    else if i < 32 then ((d &&& b) ||| (not32 d &&& c), (5 * i + 1) % 16)
    else if i < 48 then (b ^^^ c ^^^ d, (3 * i + 5) % 16)
    else (c ^^^ (b ||| not32 d), 7 * i % 16)
  let f := (fg.1 + a + md5K.getD i 0 + md5Word block fg.2) % 2 ^ 32
  (d, (b + rotl32 f (md5S.getD i 0)) % 2 ^ 32, b, c)

/-- Process one 64-byte block, updating the running state. -/
def md5Block (st : ℕ × ℕ × ℕ × ℕ) (block : List ℕ) : ℕ × ℕ × ℕ × ℕ :=
  let r := (List.range 64).foldl (md5Round block) st
  ((st.1 + r.1) % 2 ^ 32, (st.2.1 + r.2.1) % 2 ^ 32,
   (st.2.2.1 + r.2.2.1) % 2 ^ 32, (st.2.2.2 + r.2.2.2) % 2 ^ 32)

/-- Fold the block function over a padded message (a multiple of 64 bytes). -/
def md5Blocks (st : ℕ × ℕ × ℕ × ℕ) : List ℕ → ℕ × ℕ × ℕ × ℕ
  | [] => st
  | b :: rest => md5Blocks (md5Block st ((b :: rest).take 64)) ((b :: rest).drop 64)
termination_by l => l.length
decreasing_by simp [List.drop_eq_nil_iff, List.length_drop]; omega

/-- Little-endian byte expansion of a 32-bit word. -/
def toLE4 (w : ℕ) : List ℕ :=
  [w % 256, w / 256 % 256, w / 65536 % 256, w / 16777216 % 256]

/-- Little-endian byte expansion of the 64-bit bit-length field. -/
def toLE8 (n : ℕ) : List ℕ :=
  [n % 256, n / 256 % 256, n / 65536 % 256, n / 16777216 % 256,
   n / 4294967296 % 256, n / 1099511627776 % 256,
   n / 281474976710656 % 256, n / 72057594037927936 % 256]

/-- MD5 padding: `0x80`, zeros to 56 mod 64, then the bit length. -/
def md5Padding (msg : List ℕ) : List ℕ :=
  msg ++ [128] ++ List.replicate ((119 - msg.length % 64) % 64) 0 ++
    toLE8 (8 * msg.length)

/-- The 16-byte MD5 digest of a byte list. -/
def md5Bytes (msg : List ℕ) : List ℕ :=
  let r := md5Blocks (0x67452301, 0xefcdab89, 0x98badcfe, 0x10325476) (md5Padding msg)
  toLE4 r.1 ++ toLE4 r.2.1 ++ toLE4 r.2.2.1 ++ toLE4 r.2.2.2

/-- Lower-case hex digit. -/
def hexChar (n : ℕ) : Char :=
  if n < 10 then Char.ofNat (48 + n) else Char.ofNat (87 + n)

/-- Lower-case hex string of a byte list (`hexdigest()`). -/
def hexOfBytes (l : List ℕ) : String :=
  String.mk ((l.map (fun b => [hexChar (b / 16), hexChar (b % 16)])).flatten)

/-- `hashlib.md5(...).hexdigest()` of a byte list. -/
def md5Hex (msg : List ℕ) : String := hexOfBytes (md5Bytes msg)

/-- `car_details = f"{dealer_code}_{car_name}_{year}_{kilometrage}"`
(`dubizzler-scraper.py` lines 128 and 229). -/
def car_details (dealer_code car_name year kilometrage : String) : String :=
  dealer_code ++ "_" ++ car_name ++ "_" ++ year ++ "_" ++ kilometrage

/-- `car_id = hashlib.md5(car_details.encode()).hexdigest()`
(`dubizzler-scraper.py` lines 129 and 230), identical in both adapters. -/
def fingerprint (dealer_code car_name year kilometrage : String) : String :=
  md5Hex (utf8Encode (car_details dealer_code car_name year kilometrage))

/-! ### Listing records and the two site adapters -/

/-- One scraped listing row: the dict built per card by both adapters
(`dubizzler-scraper.py` lines 132-145 and 232-245) plus the `status` and
`platform` keys that `main` adds.  `main` tags each scraped record with
its platform immediately after the adapter call (lines 314-321); that
tagging is folded into the adapter model here. -/
structure CarRow where
  car_id : String
  dealer_code : String
  created_at : String
  brand : String
  name : String
  price : String
  km : String
  year : String
  location : String
  listed : String
  days : DaysVal
  url : String
  status : String
  platform : String
deriving DecidableEq

/-- A dubizzle listing card, reduced to the text of each sub-element the
adapter selects (already the `.text` of the node; `none` = the
sub-selector matched nothing).  `linkHref` is the `href` attribute of
the card's first `a` element; `none` covers both a missing element and
a missing attribute (`link_elem and 'href' in link_elem.attrs`). -/
structure DubizzleCard where
  nameElem : Option String
  priceElem : Option String
  kmElem : Option String
  yearElem : Option String
  timeElem : Option String
  locationElem : Option String
  linkHref : Option String
deriving DecidableEq

/-- Per-card extraction of `scrape_dubizzle_cars`
(`dubizzler-scraper.py` lines 92-145).  `current_time` is the formatted
`datetime.now()` shared by all cards of one fetch.  `none` models the
uncaught exception of `extract_car_brand` on a tokenless title. -/
def scrapeDubizzleCard (dealer_code current_time : String) (c : DubizzleCard) :
    Option CarRow :=
  let car_name := (c.nameElem.map trimStr).getD "N/A"
  let year := (c.yearElem.map trimStr).getD "N/A"
  let kilometrage := (c.kmElem.map trimStr).getD "N/A"
  let listing_time := (c.timeElem.map trimStr).getD "N/A"
  (extract_car_brand car_name).map fun car_brand =>
    { car_id := fingerprint dealer_code car_name year kilometrage
      dealer_code := dealer_code
      created_at := current_time
      brand := car_brand
      name := car_name
      price := (c.priceElem.map trimStr).getD "N/A"
      km := kilometrage
      year := year
      location := (c.locationElem.map trimStr).getD "N/A"
      listed := listing_time
      days := parse_listing_time listing_time
      url := match c.linkHref with
        | some h => "https://www.dubizzle.com.eg" ++ h
        | none => "N/A"
      status := ""
      platform := "dubizzle" }

/-- The hatla2ee card header anchor: its text, and its `href` attribute
when present. -/
structure H2Header where
  text : String
  href : Option String
deriving DecidableEq

/-- A hatla2ee listing card, reduced to the sub-elements the adapter
selects: the header anchor, the price text, the list of
`newCarListUnit_metaTag` span texts, and the `otherData_Date` span text. -/
structure H2Card where
  header : Option H2Header
  priceElem : Option String
  metaTags : List String
  dateElem : Option String
deriving DecidableEq

/-- Python `f"{v:,}"`: decimal digits grouped in threes from the right.
`group3` chunks an already reversed digit list. -/
def group3 : List Char → List (List Char)
  | [] => []
  | [a] => [[a]]
  | [a, b] => [[a, b]]
  | a :: b :: c :: rest => [a, b, c] :: group3 rest

/-- Thousands-separated decimal rendering of a natural number. -/
def formatThousands (n : ℕ) : String :=
  String.mk (List.intercalate [','] (((group3 (Nat.repr n).data.reverse).map List.reverse).reverse))

/-- Price normalisation of `scrape_hatla2ee_cars`
(`dubizzler-scraper.py` lines 175-188): keep only digit characters of
the stripped price text; if any remain, parse as an integer and render
as `"EGP <thousands-separated>"`, else `"N/A"`. -/
def h2Price (priceElem : Option String) : String :=
  match priceElem with
  | none => "N/A"
  | some t =>
    let ds := (trimStr t).data.filter Char.isDigit
    if ds = [] then "N/A"
    else "EGP " ++ formatThousands (digitsToNat ds)

/-- The city names used to recognise a location meta tag
(`dubizzler-scraper.py` line 199). -/
def h2Cities : List String := ["Cairo", "Giza", "Alexandria", "Heliopolis"]

/-- One iteration of the meta-tag loop of `scrape_hatla2ee_cars`
(lines 195-200): a tag containing `"Km"` overwrites the kilometrage,
else a tag containing a known city name overwrites the location. -/
def h2MetaStep (kmloc : String × String) (tag : String) : String × String :=
  let text := trimStr tag
  if strContains text "Km" then (text, kmloc.2)
  else if h2Cities.any (fun city => strContains text city) then (kmloc.1, text)
  else kmloc

/-- The meta-tag loop of `scrape_hatla2ee_cars` (lines 191-200):
kilometrage and location both start at `"N/A"`. -/
def h2Meta (metaTags : List String) : String × String :=
  metaTags.foldl h2MetaStep ("N/A", "N/A")

/-- `\w` word characters (ASCII model). -/
def isWordChar (c : Char) : Bool := c.isAlphanum || c = '_'

/-- `re.search(r'\b20\d{2}\b', s)` (`dubizzler-scraper.py` line 204):
leftmost four-digit token `20dd` delimited by word boundaries.  `prev`
is the character immediately before the current scan position. -/
def findYear : Option Char → List Char → Option String
  | prev, c1 :: c2 :: c3 :: c4 :: rest =>
    if c1 = '2' && c2 = '0' && c3.isDigit && c4.isDigit
        && (match prev with | none => true | some p => !isWordChar p)
        && (match rest with | [] => true | n :: _ => !isWordChar n)
    then some (String.mk [c1, c2, c3, c4])
    else findYear (some c1) (c2 :: c3 :: c4 :: rest)
  | _, _ => none

/-- Model year of a hatla2ee card: first `20dd` token of the title. -/
def h2Year (car_name : String) : String := (findYear none car_name.data).getD "N/A"

/-- Gregorian leap year. -/
def isLeap (y : ℕ) : Bool := (y % 4 == 0 && y % 100 != 0) || y % 400 == 0

/-- Days in a month (for `strptime` range validation). -/
def daysInMonth (y m : ℕ) : ℕ :=
  if m = 2 then (if isLeap y then 29 else 28)
  else if m = 4 ∨ m = 6 ∨ m = 9 ∨ m = 11 then 30
  else 31

/-- Split a character list at `'-'` separators (`s.split("-")`). -/
def splitDash : List Char → List (List Char)
  | [] => [[]]
  | c :: rest =>
    match splitDash rest with
    | [] => [[c]]
    | g :: gs => if c = '-' then [] :: g :: gs else (c :: g) :: gs

/-- `datetime.strptime(s, "%Y-%m-%d")`: exactly four year digits, one or
two month and day digits, range-checked; the whole string must be
consumed.  Returns `(year, month, day)`. -/
def strptimeYMD (s : String) : Option (ℕ × ℕ × ℕ) :=
  match splitDash s.data with
  | [ys, ms, ds] => do
    let y ← if ys.length = 4 && ys.all Char.isDigit then
        some (digitsToNat ys) else none
    let m ← if (ms.length = 1 || ms.length = 2) && ms.all Char.isDigit then
        some (digitsToNat ms) else none
    let d ← if (ds.length = 1 || ds.length = 2) && ds.all Char.isDigit then
        some (digitsToNat ds) else none
    if 1 ≤ y ∧ 1 ≤ m ∧ m ≤ 12 ∧ 1 ≤ d ∧ d ≤ daysInMonth y m then some (y, m, d)
    else none
  | _ => none

/-- Day ordinal of a calendar date (civil-calendar day count), so that
`(now - listing_date).days` is a difference of ordinals. -/
def dateOrdinal (y m d : ℕ) : ℕ :=
  let y' := if m ≤ 2 then y - 1 else y
  let era := y' / 400
  let yoe := y' % 400
  let mp := (m + 9) % 12
  let doy := (153 * mp + 2) / 5 + d - 1
  let doe := yoe * 365 + yoe / 4 - yoe / 100 + doy
  era * 146097 + doe

/-- Per-card extraction of `scrape_hatla2ee_cars`
(`dubizzler-scraper.py` lines 166-245).  `nowOrd` is the day ordinal of
`datetime.now()` (the code subtracts datetimes and keeps `.days`; time
of day is below the granularity any claim depends on). -/
def scrapeH2Card (dealer_code current_time : String) (nowOrd : ℤ) (c : H2Card) :
    Option CarRow :=
  let car_name := (c.header.map (fun h => trimStr h.text)).getD "N/A"
  (extract_car_brand car_name).map fun car_brand =>
    let kmloc := h2Meta c.metaTags
    let year := h2Year car_name
    let listing_time := (c.dateElem.map trimStr).getD "N/A"
    { car_id := fingerprint dealer_code car_name year kmloc.1
      dealer_code := dealer_code
      created_at := current_time
      brand := car_brand
      name := car_name
      price := h2Price c.priceElem
      km := kmloc.1
      year := year
      location := kmloc.2
      listed := listing_time
      days :=
        if listing_time = "N/A" then .na
        else
          match strptimeYMD (trimStr listing_time) with
          | some (y, m, d) => .num ((nowOrd - (dateOrdinal y m d : ℤ) : ℤ) : ℚ)
          | none => .na
      url := match c.header with
        | some h =>
          match h.href with
          | some href => "https://eg.hatla2ee.com" ++ href
          | none => ""
        | none => ""
      status := ""
      platform := "hatla2ee" }

/-! ### Cross-source deduplication (`main`, lines 339-356) -/

/-- The merge key `f"{car['Car Name']}_{car['Year']}_{car['Kilometrage']}"`. -/
def carKey (c : CarRow) : String := c.name ++ "_" ++ c.year ++ "_" ++ c.km

/-- The duplicate branch of the merge loop (lines 351-356): find the
first already-kept record with the same key and append the duplicate's
platform to its platform field, comma-separated, unconditionally. -/
def updateFirstPlatform : List CarRow → String → String → List CarRow
  | [], _, _ => []
  | e :: rest, key, plat =>
    if carKey e = key then { e with platform := e.platform ++ ", " ++ plat } :: rest
    else e :: updateFirstPlatform rest key plat

/-- The merge loop of `main` (lines 340-356): `unique` is
`unique_cars`, `seen` the set of keys already kept. -/
def dedupeGo : List CarRow → List CarRow → List String → List CarRow
  | [], unique, _ => unique
  | car :: rest, unique, seen =>
    if carKey car ∈ seen then
      dedupeGo rest (updateFirstPlatform unique (carKey car) car.platform) seen
    else
      dedupeGo rest (unique ++ [car]) (carKey car :: seen)

/-- Cross-source merge of one dealer's records for one run. -/
def dedupe (cars : List CarRow) : List CarRow := dedupeGo cars [] []

/-! ### Status reconciliation (`main`, lines 286-290 and 368-380) -/

/-- `existing_car_ids = {row.get('car_id', '') for row in existing_data
if row.get('car_id')}`: the identifiers already in the database sheet,
skipping rows whose identifier is empty (falsy). -/
def existingIds (history : List CarRow) : List String :=
  (history.filter (fun r => r.car_id != "")).map (fun r => r.car_id)

/-- The status loop (lines 368-374): each current-run record is marked
`"existing"` when its identifier is in the snapshot, else `"new"`. -/
def classify (ids : List String) (run : List CarRow) : List CarRow :=
  run.map (fun car =>
    { car with status := if car.car_id ∈ ids then "existing" else "new" })

/-- One full reconciliation run: the identifier snapshot is taken before
any append (line 287), every current-run record is classified against
it, and all classified rows are appended to the database (line 380).
Returns (classified run, updated history). -/
def reconcile (run history : List CarRow) : List CarRow × List CarRow :=
  let cls := classify (existingIds history) run
  (cls, history ++ cls)

/-! ### Staleness (`dubizzler.py`, `load_data` lines 70-79) -/

/-- One database row as the dashboard sees it: identifier and parsed
observation timestamp (`created at`), embedded as an integer time
value with the freshness window expressed in the same day unit. -/
structure HistRow where
  car_id : String
  created : ℤ
deriving DecidableEq

/-- The dashboard's freshness window: `pd.Timedelta(days=3)`. -/
def freshnessWindowDays : ℤ := 3

/-- `df['created at'].max()` (line 71). -/
def latestDate : List HistRow → ℤ
  | [] => 0
  | r :: rs => (rs.map (fun x => x.created)).foldl max r.created

/-- Most recent observation of one identifier: the `created at` of the
row `sort_values('created at').groupby('car_id').last()` keeps
(lines 75), i.e. the maximum over the identifier's rows. -/
def lastSeen (rows : List HistRow) (id : String) : ℤ :=
  latestDate (rows.filter (fun r => r.car_id == id))

/-- `expired_car_ids` (line 78): identifiers whose most recent
observation is strictly older than `latest_date - 3 days`. -/
def expiredIds (rows : List HistRow) : List String :=
  ((rows.map (fun r => r.car_id)).dedup).filter
    (fun id => decide (lastSeen rows id < latestDate rows - freshnessWindowDays))

/-- `df['expired'] = df['car_id'].isin(expired_car_ids)` (line 79):
every row of a flagged identifier is flagged. -/
def expiredFlag (rows : List HistRow) (r : HistRow) : Bool :=
  decide (r.car_id ∈ expiredIds rows)

/-- A concrete listing row builder for witness instances: identifier,
merge-key-determining name, and platform vary; the rest is fixed. -/
def sampleRow (id key plat : String) : CarRow :=
  { car_id := id, dealer_code := "D1", created_at := "2024-01-01 00:00:00",
    brand := "Toyota", name := key, price := "EGP 1,000,000", km := "100,000 Km",
    year := "2020", location := "Cairo", listed := "2 days ago",
    days := .na, url := "u", status := "", platform := plat }

/-- A concrete current run for reconciliation witnesses. -/
def runEx : List CarRow :=
  [sampleRow "aaa" "k1" "dubizzle", sampleRow "ccc" "k2" "hatla2ee"]

/-- A concrete prior history for reconciliation witnesses: shares the
identifier "aaa" with `runEx`. -/
def histEx : List CarRow :=
  [sampleRow "aaa" "k1" "dubizzle", sampleRow "bbb" "k3" "dubizzle"]

/-- Specification-side characterization of the merge: the key sequence
with only the first occurrence of each key kept, in encounter order. -/
def firstSeenAux : List String → List String → List String
  | [], _ => []
  | k :: ks, seen =>
    if k ∈ seen then firstSeenAux ks seen else k :: firstSeenAux ks (k :: seen)

/-- First occurrences of each key of `l`, in encounter order. -/
def firstSeen (l : List String) : List String := firstSeenAux l []

/-- Split a character list at each `", "` separator. -/
def splitCommaSpace : List Char → List (List Char)
  | [] => [[]]
  | ',' :: ' ' :: rest => [] :: splitCommaSpace rest
  | c :: rest =>
    match splitCommaSpace rest with
    | [] => [[c]]
    | g :: gs => (c :: g) :: gs

/-- The individual source names denoted by a comma-joined platform
field (specification-side reading of the merged source list). -/
def splitSources (s : String) : List String :=
  (splitCommaSpace s.data).map String.mk

/-- Base-256 value of a byte list (little-endian), used to bound the
digest space. -/
def bytesToNat : List ℕ → ℕ
  | [] => 0
  | b :: l => b + 256 * bytesToNat l

/-- A dubizzle card whose every sub-selector matched nothing. -/
def dEmptyCard : DubizzleCard := ⟨none, none, none, none, none, none, none⟩

/-- A hatla2ee card whose every sub-selector matched nothing. -/
def hEmptyCard : H2Card := ⟨none, none, [], none⟩

/-- The record the dubizzle adapter produces for `dEmptyCard`. -/
def rD : CarRow :=
  { car_id := fingerprint "D1" "N/A" "N/A" "N/A", dealer_code := "D1",
    created_at := "t", brand := "N/A", name := "N/A", price := "N/A",
    km := "N/A", year := "N/A", location := "N/A", listed := "N/A",
    days := .na, url := "N/A", status := "", platform := "dubizzle" }

/-- The record the hatla2ee adapter produces for `hEmptyCard`: note the
empty-string listing URL. -/
def rH : CarRow :=
  { car_id := fingerprint "D1" "N/A" "N/A" "N/A", dealer_code := "D1",
    created_at := "t", brand := "N/A", name := "N/A", price := "N/A",
    km := "N/A", year := "N/A", location := "N/A", listed := "N/A",
    days := .na, url := "", status := "", platform := "hatla2ee" }

/-- A fully populated dubizzle card. -/
def wCard1 : DubizzleCard :=
  ⟨some "Toyota Corolla 2020", some "EGP 1,000,000", some "100,000 Km",
    some "2020", some "3 days ago", some "Cairo", some "/ad/1"⟩

/-- The same listing as `wCard1` but with different price, posting time,
location and link. -/
def wCard2 : DubizzleCard :=
  ⟨some "Toyota Corolla 2020", some "EGP 900,000", some "100,000 Km",
    some "2020", some "5 days ago", some "Giza", some "/ad/2"⟩

/-! ## Theorems -/

/-- `List.find?` returns the element at the first index satisfying the
predicate. -/
theorem find?_first {α : Type _} (p : α → Bool) :
    ∀ (l : List α) (i : ℕ) (hi : i < l.length),
      p (l.get ⟨i, hi⟩) = true →
      (∀ j (hj : j < i), p (l.get ⟨j, Nat.lt_trans hj hi⟩) = false) →
      l.find? p = some (l.get ⟨i, hi⟩)
  | [], i, hi, _, _ => absurd hi (Nat.not_lt_zero i)
  | a :: as, 0, _, hp, _ => List.find?_cons_of_pos _ hp
  | a :: as, n + 1, hi, hp, hmin => by
    have ha : p a = false := hmin 0 (Nat.succ_pos n)
    rw [List.find?_cons_of_neg _ (by simp [ha])]
    exact find?_first p as n (Nat.lt_of_succ_lt_succ hi) hp
      (fun j hj => hmin (j + 1) (Nat.succ_lt_succ hj))

/-- C7: a title containing a catalog brand as case-insensitive substring
classifies as the first such entry in catalog order; a title with no
catalog match classifies as its first whitespace-delimited token. -/
theorem classify_brand_spec :
    (∀ (title : String) (i : ℕ) (hi : i < brands.length),
        strContains (strLower title) (strLower (brands.get ⟨i, hi⟩)) = true →
        (∀ j (hj : j < i),
          strContains (strLower title) (strLower (brands.get ⟨j, Nat.lt_trans hj hi⟩)) = false) →
        extract_car_brand title = some (brands.get ⟨i, hi⟩)) ∧
    (∀ (title w : String) (ws : List String),
        (∀ b ∈ brands, strContains (strLower title) (strLower b) = false) →
        splitTokens title = w :: ws →
        extract_car_brand title = some w) := by
  constructor
  · intro title i hi hp hmin
    by_cases hNA : title = "N/A"
    · subst hNA
      have hall : ∀ b ∈ brands, strContains (strLower "N/A") (strLower b) = false := by decide
      have := hall _ (brands.get_mem i hi)
      rw [this] at hp
      cases hp
    · unfold extract_car_brand
      rw [if_neg hNA, find?_first _ brands i hi hp hmin]
  · intro title w ws hnone hsplit
    by_cases hNA : title = "N/A"
    · subst hNA
      have : splitTokens "N/A" = ["N/A"] := by decide
      rw [this] at hsplit
      cases hsplit
      rfl
    · unfold extract_car_brand
      rw [if_neg hNA, List.find?_eq_none.mpr (fun b hb => by simp [hnone b hb]), hsplit]

/-- Witness for `classify_brand_spec`: a catalog match returns the
catalog entry; a non-matching title returns its first token. -/
theorem classify_brand_spec_witness :
    extract_car_brand "Toyota Corolla 2020" = some "Toyota" ∧
    extract_car_brand "Zzz 123" = some "Zzz" := by
  constructor
  · have h := classify_brand_spec.1 "Toyota Corolla 2020" 0 (by decide) (by decide)
      (fun j hj => absurd hj (Nat.not_lt_zero j))
    simpa using h
  · exact classify_brand_spec.2 "Zzz 123" "Zzz" ["123"] (by decide) (by decide)

/-- C8 counterexample: on the empty title and on a whitespace-only
title, `extract_car_brand` does not return a string — the
`car_name.split()[0]` fallback raises `IndexError` (modelled as `none`),
contradicting "always returns a string (including for the empty title
and titles consisting only of whitespace)". -/
theorem classify_totality_counterexample :
    extract_car_brand "" = none ∧ extract_car_brand "   " = none := by decide

/-- C8 amended: `classify` returns a string for every title except
those with no catalog match and no whitespace-delimited token (the
empty and whitespace-only titles), where the first-token lookup fails;
the `"N/A"` sentinel is returned unchanged. -/
theorem classify_totality_amended :
    (∀ title : String,
        extract_car_brand title = none ↔
          title ≠ "N/A" ∧
          brands.find? (fun b => strContains (strLower title) (strLower b)) = none ∧
          splitTokens title = []) ∧
    extract_car_brand "N/A" = some "N/A" := by
  refine ⟨fun title => ?_, by decide⟩
  unfold extract_car_brand
  by_cases hNA : title = "N/A"
  · simp [hNA]
  · rw [if_neg hNA]
    cases hfind : brands.find? (fun b => strContains (strLower title) (strLower b)) with
    | some b => simp [hNA]
    | none =>
      cases hsplit : splitTokens title with
      | nil => simp [hNA, hsplit]
      | cons w ws => simp [hNA, hsplit]

/-- Evaluation of `parse_listing_time` once the pattern has matched:
the unit word selects the branch by substring containment. -/
theorem parse_of_match (s : String) (v : ℕ) (u : String)
    (h : reMatchTime s = some (v, u)) :
    parse_listing_time s =
      (if strContains u "minute" then .num (round2 ((v : ℚ) / (24 * 60)))
       else if strContains u "hour" then .num (round2 ((v : ℚ) / 24))
       else if strContains u "day" then .num (v : ℚ)
       else if strContains u "week" then .num ((v : ℚ) * 7)
       else if strContains u "month" then .num ((v : ℚ) * 30)
       else if strContains u "year" then .num ((v : ℚ) * 365)
       else .na) := by
  have hs : s ≠ "N/A" := by
    intro e
    subst e
    rw [show reMatchTime "N/A" = none from rfl] at h
    cases h
  unfold parse_listing_time
  rw [if_neg hs, h]

/-- Distinct `DaysVal` constructors differ. -/
theorem num_ne_na (q : ℚ) : DaysVal.num q ≠ DaysVal.na :=
  fun hc => DaysVal.noConfusion hc

/-- C6: the relative-time normalizer converts a matched
`"<integer> <unit> ago"` string to days: minutes / 1440 and hours / 24
rounded to 2 decimal places, days as is, weeks times 7, months times 30,
years times 365; concretely 0.02 for "35 minutes ago", 2 for
"2 days ago", 21 for "3 weeks ago", and the sentinel for "garbage". -/
theorem normalize_age_spec :
    parse_listing_time "35 minutes ago" = .num 0.02 ∧
    parse_listing_time "2 days ago" = .num 2 ∧
    parse_listing_time "3 weeks ago" = .num 21 ∧
    parse_listing_time "garbage" = .na ∧
    (∀ (s : String) (v : ℕ) (u : String), reMatchTime s = some (v, u) →
      ((u = "minute" ∨ u = "minutes") →
        parse_listing_time s = .num (round2 ((v : ℚ) / 1440))) ∧
      ((u = "hour" ∨ u = "hours") →
        parse_listing_time s = .num (round2 ((v : ℚ) / 24))) ∧
      ((u = "day" ∨ u = "days") → parse_listing_time s = .num (v : ℚ)) ∧
      ((u = "week" ∨ u = "weeks") → parse_listing_time s = .num ((v : ℚ) * 7)) ∧
      ((u = "month" ∨ u = "months") → parse_listing_time s = .num ((v : ℚ) * 30)) ∧
      ((u = "year" ∨ u = "years") → parse_listing_time s = .num ((v : ℚ) * 365))) := by
  refine ⟨?_, ?_, ?_, rfl, ?_⟩
  · rw [parse_of_match "35 minutes ago" 35 "minutes" (by decide)]
    refine congrArg DaysVal.num ?_
    simp only [round2, roundHalfEven]
    have hq : ((35 : ℕ) : ℚ) / (24 * 60) * 100 = 175 / 72 := by push_cast; norm_num
    rw [hq]
    have hf : ⌊(175 / 72 : ℚ)⌋ = (2 : ℤ) := Int.floor_eq_iff.mpr (by norm_num)
    rw [hf]
    norm_num
  · rw [parse_of_match "2 days ago" 2 "days" (by decide)]
    exact congrArg DaysVal.num (by norm_num)
  · rw [parse_of_match "3 weeks ago" 3 "weeks" (by decide)]
    exact congrArg DaysVal.num (by norm_num)
  · intro s v u h
    refine ⟨?_, ?_, ?_, ?_, ?_, ?_⟩ <;> rintro (rfl | rfl) <;>
      rw [parse_of_match _ _ _ h] <;>
      exact congrArg DaysVal.num (by norm_num)

/-- Witness for `normalize_age_spec`: the hour branch applied at
"100 hours ago". -/
theorem normalize_age_spec_witness :
    parse_listing_time "100 hours ago" = .num (round2 ((100 : ℚ) / 24)) :=
  ((normalize_age_spec.2.2.2.2 "100 hours ago" 100 "hours" (by decide)).2.1)
    (Or.inr rfl)

/-- C10: the pattern is anchored only at the start and units are
recognised by substring containment, so trailing text after "ago" and
non-unit words containing a unit substring still parse: "3 days ago
(edited)" gives 3, "2 tuesdays ago" gives 2, and in general any matched
input whose unit word contains a unit substring yields a number, not
the sentinel. -/
theorem time_pattern_lenient :
    parse_listing_time "3 days ago (edited)" = .num 3 ∧
    parse_listing_time "2 tuesdays ago" = .num 2 ∧
    (∀ (s : String) (v : ℕ) (u : String), reMatchTime s = some (v, u) →
      (strContains u "minute" || strContains u "hour" || strContains u "day" ||
        strContains u "week" || strContains u "month" || strContains u "year") = true →
      parse_listing_time s ≠ .na) := by
  refine ⟨?_, ?_, fun s v u h hu => ?_⟩
  · rw [parse_of_match "3 days ago (edited)" 3 "days" (by decide)]
    exact congrArg DaysVal.num (by norm_num)
  · rw [parse_of_match "2 tuesdays ago" 2 "tuesdays" (by decide)]
    exact congrArg DaysVal.num (by norm_num)
  · rw [parse_of_match _ _ _ h]
    by_cases h1 : strContains u "minute" = true
    · rw [if_pos h1]; exact num_ne_na _
    · rw [if_neg h1]
      by_cases h2 : strContains u "hour" = true
      · rw [if_pos h2]; exact num_ne_na _
      · rw [if_neg h2]
        by_cases h3 : strContains u "day" = true
        · rw [if_pos h3]; exact num_ne_na _
        · rw [if_neg h3]
          by_cases h4 : strContains u "week" = true
          · rw [if_pos h4]; exact num_ne_na _
          · rw [if_neg h4]
            by_cases h5 : strContains u "month" = true
            · rw [if_pos h5]; exact num_ne_na _
            · rw [if_neg h5]
              by_cases h6 : strContains u "year" = true
              · rw [if_pos h6]; exact num_ne_na _
              · exact absurd hu (by simp [h1, h2, h3, h4, h5, h6])

/-- Witness for `time_pattern_lenient`: the general leniency fact
applied at "2 tuesdays ago". -/
theorem time_pattern_lenient_witness :
    parse_listing_time "2 tuesdays ago" ≠ .na :=
  time_pattern_lenient.2.2 "2 tuesdays ago" 2 "tuesdays" (by decide) (by decide)

/-- The seed of a max-fold bounds the fold from below. -/
theorem le_foldl_max (b : ℤ) (l : List ℤ) : b ≤ l.foldl max b := by
  induction l generalizing b with
  | nil => exact le_refl b
  | cons x xs ih => exact le_trans (le_max_left b x) (ih (max b x))

/-- Every member of a list bounds its max-fold from below. -/
theorem mem_le_foldl_max (l : List ℤ) (b a : ℤ) (ha : a ∈ l) : a ≤ l.foldl max b := by
  induction l generalizing b with
  | nil => cases ha
  | cons x xs ih =>
    rcases List.mem_cons.mp ha with rfl | h
    · exact le_trans (le_max_right b a) (le_foldl_max (max b a) xs)
    · exact ih (max b x) h

/-- Every row's timestamp is at most the history-wide latest. -/
theorem created_le_latestDate (rows : List HistRow) (r : HistRow) (hr : r ∈ rows) :
    r.created ≤ latestDate rows := by
  cases rows with
  | nil => cases hr
  | cons x xs =>
    unfold latestDate
    rcases List.mem_cons.mp hr with rfl | h
    · exact le_foldl_max _ _
    · exact mem_le_foldl_max _ _ _ (List.mem_map_of_mem _ h)

/-- Every row's timestamp is at most its identifier's most recent one. -/
theorem created_le_lastSeen (rows : List HistRow) (r : HistRow) (hr : r ∈ rows) :
    r.created ≤ lastSeen rows r.car_id := by
  apply created_le_latestDate
  rw [List.mem_filter]
  exact ⟨hr, by simp⟩

/-- Membership in `expired_car_ids`, unfolded. -/
theorem mem_expiredIds (rows : List HistRow) (id : String) :
    id ∈ expiredIds rows ↔
      id ∈ rows.map (fun r => r.car_id) ∧
        lastSeen rows id < latestDate rows - freshnessWindowDays := by
  unfold expiredIds
  simp [List.mem_filter, List.mem_dedup]

/-- C2: staleness is a history-wide recency fact: when an identifier's
single most recent `created at` is strictly older than the latest
observation across all history minus the freshness window (3 days),
every record sharing that identifier is flagged; and a record observed
at the history-wide latest timestamp is never flagged on that run. -/
theorem staleness_recency (rows : List HistRow) (id : String) :
    (lastSeen rows id < latestDate rows - freshnessWindowDays →
      ∀ r ∈ rows, r.car_id = id → expiredFlag rows r = true) ∧
    (∀ r ∈ rows, r.created = latestDate rows → expiredFlag rows r = false) := by
  constructor
  · intro hold r hr hid
    subst hid
    unfold expiredFlag
    simp only [decide_eq_true_eq]
    exact (mem_expiredIds rows r.car_id).mpr ⟨List.mem_map_of_mem _ hr, hold⟩
  · intro r hr hlat
    unfold expiredFlag
    simp only [decide_eq_false_iff_not]
    rw [mem_expiredIds]
    rintro ⟨-, hlt⟩
    have h1 : r.created ≤ lastSeen rows r.car_id := created_le_lastSeen rows r hr
    rw [hlat] at h1
    unfold freshnessWindowDays at hlt
    omega

/-- Witness for `staleness_recency`: with the newest observation at time
0, the identifier last seen at -4 (window + 1 days earlier) is flagged
on every record, and the row observed at 0 is not flagged. -/
theorem staleness_recency_witness :
    expiredFlag [⟨"a", 0⟩, ⟨"b", -4⟩] ⟨"b", -4⟩ = true ∧
    expiredFlag [⟨"a", 0⟩, ⟨"b", -4⟩] ⟨"a", 0⟩ = false := by
  constructor
  · exact (staleness_recency [⟨"a", 0⟩, ⟨"b", -4⟩] "b").1 (by decide) ⟨"b", -4⟩
      (by simp) rfl
  · exact (staleness_recency [⟨"a", 0⟩, ⟨"b", -4⟩] "a").2 ⟨"a", 0⟩ (by simp) (by decide)

/-- For a nonempty identifier, membership in the code's snapshot set
(which skips falsy identifiers) coincides with membership among all
history identifiers. -/
theorem mem_existingIds (history : List CarRow) (a : String) (ha : a ≠ "") :
    a ∈ existingIds history ↔ a ∈ history.map (fun r => r.car_id) := by
  unfold existingIds
  simp only [List.mem_map, List.mem_filter, bne_iff_ne, ne_eq]
  constructor
  · rintro ⟨r, ⟨hrm, _⟩, rfl⟩
    exact ⟨r, hrm, rfl⟩
  · rintro ⟨r, hrm, rfl⟩
    exact ⟨r, ⟨hrm, ha⟩, rfl⟩

/-- Classification does not change identifiers. -/
theorem classify_map_car_id (ids : List String) (run : List CarRow) :
    (classify ids run).map (fun r => r.car_id) = run.map (fun r => r.car_id) := by
  unfold classify
  rw [List.map_map]
  rfl

/-- C1: every current-run record is classified "new" exactly when its
identifier is absent from the identifiers previously recorded in the
history (snapshotted before this run's appends), else "existing"; and
every record, new or existing, is then appended to the history with all
its fields (in particular its observation timestamp) intact.  The
identifiers of scraped records are md5 hex digests, hence nonempty
(`fingerprint_ne_empty`); hypothesis `hid` captures that. -/
theorem reconcile_classifies_and_appends (run history : List CarRow)
    (hid : ∀ c ∈ run, c.car_id ≠ "") :
    (reconcile run history).1 =
      run.map (fun c =>
        { c with status :=
            if c.car_id ∈ history.map (fun r => r.car_id) then "existing"
            else "new" }) ∧
    (reconcile run history).2 = history ++ (reconcile run history).1 := by
  refine ⟨?_, rfl⟩
  unfold reconcile classify
  refine List.map_congr_left (fun c hc => ?_)
  have := mem_existingIds history c.car_id (hid c hc)
  by_cases hmem : c.car_id ∈ history.map (fun r => r.car_id)
  · rw [if_pos (this.mpr hmem), if_pos hmem]
  · rw [if_neg (fun hmm => hmem (this.mp hmm)), if_neg hmem]

/-- Witness for `reconcile_classifies_and_appends` at a concrete run
and history sharing one identifier. -/
theorem reconcile_classifies_and_appends_witness :
    (∀ c ∈ runEx, c.car_id ≠ "") ∧
    ((reconcile runEx histEx).1 =
      runEx.map (fun c =>
        { c with status :=
            if c.car_id ∈ histEx.map (fun r => r.car_id) then "existing"
            else "new" }) ∧
    (reconcile runEx histEx).2 = histEx ++ (reconcile runEx histEx).1) :=
  ⟨by decide, reconcile_classifies_and_appends runEx histEx (by decide)⟩

/-- C5: reconciliation is idempotent with respect to novelty: a second
reconciliation of the same run against the history produced by the
first classifies every record as "existing".  As in C1, current-run
identifiers are nonempty md5 digests (hypothesis `hid`). -/
theorem reconcile_idempotent (run history : List CarRow)
    (hid : ∀ c ∈ run, c.car_id ≠ "") :
    ∀ r ∈ (reconcile run (reconcile run history).2).1, r.status = "existing" := by
  intro r hr
  unfold reconcile classify at hr
  simp only [List.mem_map] at hr
  obtain ⟨c, hc, rfl⟩ := hr
  have hmem : c.car_id ∈ existingIds (history ++ classify (existingIds history) run) := by
    rw [mem_existingIds _ _ (hid c hc), List.map_append, List.mem_append]
    exact Or.inr (by rw [classify_map_car_id]; exact List.mem_map_of_mem _ hc)
  unfold classify at hmem
  simp only [if_pos hmem]

/-- Witness for `reconcile_idempotent` at a concrete run. -/
theorem reconcile_idempotent_witness :
    (∀ c ∈ runEx, c.car_id ≠ "") ∧
    ∀ r ∈ (reconcile runEx (reconcile runEx histEx).2).1, r.status = "existing" :=
  ⟨by decide, reconcile_idempotent runEx histEx (by decide)⟩

/-- Appending a platform to the first key match does not change keys. -/
theorem updateFirstPlatform_map_key (u : List CarRow) (k p : String) :
    (updateFirstPlatform u k p).map carKey = u.map carKey := by
  induction u with
  | nil => rfl
  | cons e rest ih =>
    unfold updateFirstPlatform
    by_cases he : carKey e = k
    · rw [if_pos he]
      rfl
    · rw [if_neg he]
      simp only [List.map_cons, ih]

/-- The merge loop's output keys: the keys of the already-kept records
followed by the first occurrences of the remaining keys. -/
theorem dedupeGo_map_key (cars : List CarRow) :
    ∀ (unique : List CarRow) (seen : List String),
      (∀ k, k ∈ seen ↔ k ∈ unique.map carKey) →
      (dedupeGo cars unique seen).map carKey
        = unique.map carKey ++ firstSeenAux (cars.map carKey) seen := by
  induction cars with
  | nil =>
    intro u s hinv
    simp [dedupeGo, firstSeenAux]
  | cons car rest ih =>
    intro u s hinv
    unfold dedupeGo
    by_cases hk : carKey car ∈ s
    · rw [if_pos hk,
        ih (updateFirstPlatform u (carKey car) car.platform) s
          (fun k => by rw [updateFirstPlatform_map_key]; exact hinv k),
        updateFirstPlatform_map_key]
      simp [firstSeenAux, hk]
    · rw [if_neg hk,
        ih (u ++ [car]) (carKey car :: s)
          (fun k => by
            simp only [List.map_append, List.mem_append, List.mem_cons,
              List.map_cons, List.map_nil, List.mem_singleton, hinv k]
            tauto)]
      simp [firstSeenAux, hk]

/-- Keys produced by `firstSeenAux` avoid the already-seen set. -/
theorem firstSeenAux_not_seen :
    ∀ (l seen : List String) (k : String), k ∈ firstSeenAux l seen → k ∉ seen := by
  intro l
  induction l with
  | nil => intro seen k hk; cases hk
  | cons x xs ih =>
    intro seen k hk
    unfold firstSeenAux at hk
    by_cases hx : x ∈ seen
    · rw [if_pos hx] at hk
      exact ih seen k hk
    · rw [if_neg hx] at hk
      rcases List.mem_cons.mp hk with rfl | hk2
      · exact hx
      · exact fun hs => ih (x :: seen) k hk2 (List.mem_cons_of_mem _ hs)

/-- `firstSeenAux` never repeats a key. -/
theorem firstSeenAux_nodup : ∀ (l seen : List String), (firstSeenAux l seen).Nodup := by
  intro l
  induction l with
  | nil => intro seen; exact List.nodup_nil
  | cons x xs ih =>
    intro seen
    unfold firstSeenAux
    by_cases hx : x ∈ seen
    · rw [if_pos hx]
      exact ih seen
    · rw [if_neg hx]
      refine List.nodup_cons.mpr ⟨fun hmem => ?_, ih (x :: seen)⟩
      exact firstSeenAux_not_seen xs (x :: seen) x hmem (List.mem_cons_self _ _)

/-- C3 counterexample: two records with the same merge key from the
same source survive as one record whose source field repeats the source
name ("dubizzle, dubizzle"), so the accumulated source list is NOT free
of duplicate source names as the claim states. -/
theorem merge_dedup_counterexample :
    (dedupe [sampleRow "a" "k" "dubizzle", sampleRow "b" "k" "dubizzle"]).map
        (fun c => c.platform) = ["dubizzle, dubizzle"] ∧
    splitSources "dubizzle, dubizzle" = ["dubizzle", "dubizzle"] ∧
    ¬ (["dubizzle", "dubizzle"] : List String).Nodup := by
  refine ⟨by decide, by decide, by decide⟩

/-- C3 amended: the merge keeps exactly one record per
`(title, modelYear, mileageText)` key, in first-seen order, and for two
records sharing a key the survivor's source field is the
comma-separated accumulation of both records' sources in encounter
order (the source of every matching record is appended, so a source
name repeats when the same source contributes several matching
records). -/
theorem merge_dedup_amended :
    (∀ cars : List CarRow, ((dedupe cars).map carKey).Nodup) ∧
    (∀ cars : List CarRow, (dedupe cars).map carKey = firstSeen (cars.map carKey)) ∧
    (∀ r1 r2 : CarRow, carKey r1 = carKey r2 →
      dedupe [r1, r2] =
        [{ r1 with platform := r1.platform ++ ", " ++ r2.platform }]) := by
  have hmain : ∀ cars : List CarRow,
      (dedupe cars).map carKey = firstSeen (cars.map carKey) := by
    intro cars
    unfold dedupe firstSeen
    rw [dedupeGo_map_key cars [] [] (by simp)]
    rfl
  refine ⟨fun cars => ?_, hmain, fun r1 r2 hkey => ?_⟩
  · rw [hmain]
    exact firstSeenAux_nodup _ _
  · simp [dedupe, dedupeGo, updateFirstPlatform, hkey]

/-- Witness for `merge_dedup_amended`: records from sources "dubizzle"
and "hatla2ee" with one merge key survive as a single record denoting
both sources. -/
theorem merge_dedup_amended_witness :
    carKey (sampleRow "a" "k" "dubizzle") = carKey (sampleRow "b" "k" "hatla2ee") ∧
    dedupe [sampleRow "a" "k" "dubizzle", sampleRow "b" "k" "hatla2ee"]
      = [{ sampleRow "a" "k" "dubizzle" with
            platform := "dubizzle" ++ ", " ++ "hatla2ee" }] :=
  ⟨by decide, merge_dedup_amended.2.2 _ _ (by decide)⟩

/-- A meta tag without `"Km"` leaves the kilometrage unchanged. -/
theorem h2MetaStep_fst (init : String × String) (t : String)
    (h : strContains (trimStr t) "Km" = false) :
    (h2MetaStep init t).1 = init.1 := by
  unfold h2MetaStep
  rw [if_neg (by simp [h])]
  by_cases hc : h2Cities.any (fun city => strContains (trimStr t) city) = true
  · rw [if_pos hc]
  · rw [if_neg hc]

/-- A meta tag with `"Km"` or without any known city name leaves the
location unchanged. -/
theorem h2MetaStep_snd (init : String × String) (t : String)
    (h : strContains (trimStr t) "Km" = true ∨
      ∀ city ∈ h2Cities, strContains (trimStr t) city = false) :
    (h2MetaStep init t).2 = init.2 := by
  unfold h2MetaStep
  rcases h with h | h
  · rw [if_pos h]
  · by_cases hk : strContains (trimStr t) "Km" = true
    · rw [if_pos hk]
    · rw [if_neg hk, if_neg ?hany]
      case hany =>
        intro hany
        obtain ⟨city, hc, hp⟩ := List.any_eq_true.mp hany
        rw [h city hc] at hp
        cases hp

/-- Kilometrage stays at its initial value when no tag mentions `"Km"`. -/
theorem foldl_h2MetaStep_fst :
    ∀ (tags : List String) (init : String × String),
      (∀ t ∈ tags, strContains (trimStr t) "Km" = false) →
      (tags.foldl h2MetaStep init).1 = init.1
  | [], _, _ => rfl
  | t :: ts, init, h => by
    rw [List.foldl_cons,
      foldl_h2MetaStep_fst ts _ (fun x hx => h x (List.mem_cons_of_mem _ hx))]
    exact h2MetaStep_fst init t (h t (List.mem_cons_self _ _))

/-- Location stays at its initial value when every tag either mentions
`"Km"` or mentions no known city. -/
theorem foldl_h2MetaStep_snd :
    ∀ (tags : List String) (init : String × String),
      (∀ t ∈ tags, strContains (trimStr t) "Km" = true ∨
        ∀ city ∈ h2Cities, strContains (trimStr t) city = false) →
      (tags.foldl h2MetaStep init).2 = init.2
  | [], _, _ => rfl
  | t :: ts, init, h => by
    rw [List.foldl_cons,
      foldl_h2MetaStep_snd ts _ (fun x hx => h x (List.mem_cons_of_mem _ hx))]
    exact h2MetaStep_snd init t (h t (List.mem_cons_self _ _))

/-- C9 counterexample: a hatla2ee card whose header is missing yields a
record whose listing URL is the empty string, not the `"N/A"` sentinel
the claim requires for every missing sub-element. -/
theorem adapter_missing_field_counterexample :
    (scrapeH2Card "D1" "t" 0 hEmptyCard).map (fun r => r.url) = some "" ∧
    ("" : String) ≠ "N/A" :=
  ⟨rfl, by decide⟩

/-- C9 amended: for both adapters, every missing sub-element yields the
`"N/A"` sentinel for its field — except the hatla2ee listing URL, which
defaults to the empty string — and a card with missing sub-elements is
still extracted as a record (no exception): the only failure mode of a
card is the brand fallback, which concerns a present but tokenless
title, not a missing one. -/
theorem adapter_missing_field_amended :
    (∀ (dc ct : String) (c : DubizzleCard) (r : CarRow),
      scrapeDubizzleCard dc ct c = some r →
      (c.nameElem = none → r.name = "N/A") ∧
      (c.priceElem = none → r.price = "N/A") ∧
      (c.kmElem = none → r.km = "N/A") ∧
      (c.yearElem = none → r.year = "N/A") ∧
      (c.locationElem = none → r.location = "N/A") ∧
      (c.timeElem = none → r.listed = "N/A" ∧ r.days = .na) ∧
      (c.linkHref = none → r.url = "N/A")) ∧
    (∀ (dc ct : String) (c : DubizzleCard), c.nameElem = none →
      (scrapeDubizzleCard dc ct c).isSome = true) ∧
    (∀ (dc ct : String) (ord : ℤ) (c : H2Card) (r : CarRow),
      scrapeH2Card dc ct ord c = some r →
      (c.header = none → r.name = "N/A" ∧ r.url = "") ∧
      (c.priceElem = none → r.price = "N/A") ∧
      ((∀ t ∈ c.metaTags, strContains (trimStr t) "Km" = false) → r.km = "N/A") ∧
      ((∀ t ∈ c.metaTags, strContains (trimStr t) "Km" = true ∨
          ∀ city ∈ h2Cities, strContains (trimStr t) city = false) →
        r.location = "N/A") ∧
      (findYear none r.name.data = none → r.year = "N/A") ∧
      (c.dateElem = none → r.listed = "N/A" ∧ r.days = .na)) ∧
    (∀ (dc ct : String) (ord : ℤ) (c : H2Card), c.header = none →
      (scrapeH2Card dc ct ord c).isSome = true) := by
  refine ⟨?_, ?_, ?_, ?_⟩
  · intro dc ct c r hr
    simp only [scrapeDubizzleCard] at hr
    obtain ⟨brand, hb, rfl⟩ := Option.map_eq_some'.mp hr
    refine ⟨fun h => ?_, fun h => ?_, fun h => ?_, fun h => ?_, fun h => ?_,
      fun h => ⟨?_, ?_⟩, fun h => ?_⟩ <;> rw [h] <;> rfl
  · intro dc ct c h
    unfold scrapeDubizzleCard
    rw [h]
    rfl
  · intro dc ct ord c r hr
    simp only [scrapeH2Card] at hr
    obtain ⟨brand, hb, rfl⟩ := Option.map_eq_some'.mp hr
    refine ⟨fun h => ⟨?_, ?_⟩, fun h => ?_, fun h => ?_, fun h => ?_, fun h => ?_,
      fun h => ⟨?_, ?_⟩⟩
    · rw [h]; rfl
    · rw [h]
    · rw [h]; rfl
    · exact foldl_h2MetaStep_fst c.metaTags _ h
    · exact foldl_h2MetaStep_snd c.metaTags _ h
    · have h' : findYear none
          ((c.header.map (fun x => trimStr x.text)).getD "N/A").data = none := h
      show (findYear none
          ((c.header.map (fun x => trimStr x.text)).getD "N/A").data).getD "N/A" = "N/A"
      rw [h']
      rfl
    · rw [h]; rfl
    · rw [h]; rfl
  · intro dc ct ord c h
    unfold scrapeH2Card
    rw [h]
    rfl

/-- The MD5 digest always has 16 bytes. -/
theorem md5Bytes_length (msg : List ℕ) : (md5Bytes msg).length = 16 := by
  unfold md5Bytes toLE4
  simp

/-- Every byte of a 4-byte little-endian word expansion is below 256. -/
theorem toLE4_lt (w : ℕ) : ∀ b ∈ toLE4 w, b < 256 := by
  intro b hb
  simp only [toLE4, List.mem_cons, List.not_mem_nil, or_false] at hb
  rcases hb with rfl | rfl | rfl | rfl <;> exact Nat.mod_lt _ (by norm_num)

/-- Every byte of the MD5 digest is below 256. -/
theorem md5Bytes_lt (msg : List ℕ) : ∀ b ∈ md5Bytes msg, b < 256 := by
  intro b hb
  unfold md5Bytes at hb
  simp only [List.mem_append] at hb
  rcases hb with ((h | h) | h) | h <;> exact toLE4_lt _ b h

/-- A bounded byte list's base-256 value is below `256 ^ length`. -/
theorem bytesToNat_lt : ∀ l : List ℕ, (∀ b ∈ l, b < 256) → bytesToNat l < 256 ^ l.length
  | [], _ => by simp [bytesToNat]
  | b :: l, h => by
    have hb := h b (List.mem_cons_self _ _)
    have ih := bytesToNat_lt l (fun c hc => h c (List.mem_cons_of_mem _ hc))
    unfold bytesToNat
    simp only [List.length_cons, pow_succ]
    calc b + 256 * bytesToNat l
        < 256 + 256 * bytesToNat l := by omega
      _ = 256 * (bytesToNat l + 1) := by ring
      _ ≤ 256 * 256 ^ l.length := Nat.mul_le_mul_left 256 (by omega)
      _ = 256 ^ l.length * 256 := Nat.mul_comm _ _

/-- Base-256 values identify bounded byte lists of equal length. -/
theorem bytesToNat_inj : ∀ (l1 l2 : List ℕ), l1.length = l2.length →
    (∀ b ∈ l1, b < 256) → (∀ b ∈ l2, b < 256) →
    bytesToNat l1 = bytesToNat l2 → l1 = l2
  | [], [], _, _, _, _ => rfl
  | [], _ :: _, h, _, _, _ => by simp at h
  | _ :: _, [], h, _, _, _ => by simp at h
  | a :: l1, b :: l2, h, h1, h2, heq => by
    have ha := h1 a (List.mem_cons_self _ _)
    have hb := h2 b (List.mem_cons_self _ _)
    unfold bytesToNat at heq
    have hab : a = b := by omega
    have hl : bytesToNat l1 = bytesToNat l2 := by omega
    have htl := bytesToNat_inj l1 l2 (by simpa using h)
      (fun c hc => h1 c (List.mem_cons_of_mem _ hc))
      (fun c hc => h2 c (List.mem_cons_of_mem _ hc)) hl
    rw [hab, htl]

/-- The hex rendering has two characters per byte. -/
theorem hexList_length :
    ∀ l : List ℕ,
      ((l.map (fun b => [hexChar (b / 16), hexChar (b % 16)])).flatten).length
        = 2 * l.length
  | [] => rfl
  | b :: bs => by
    simp only [List.map_cons, List.flatten_cons, List.length_append,
      hexList_length bs, List.length_cons, List.length_nil]
    omega

/-- A fingerprint is a 32-character string. -/
theorem fingerprint_data_length (d t y k : String) :
    (fingerprint d t y k).data.length = 32 := by
  show ((md5Bytes (utf8Encode (car_details d t y k))).map
      (fun b => [hexChar (b / 16), hexChar (b % 16)])).flatten.length = 32
  rw [hexList_length, md5Bytes_length]

/-- Fingerprints are never the empty string (so the reconciler's
falsy-identifier filter never drops a scraped record's identifier). -/
theorem fingerprint_ne_empty (d t y k : String) : fingerprint d t y k ≠ "" := by
  intro h
  have hlen := fingerprint_data_length d t y k
  rw [h] at hlen
  simp at hlen

/-- `car_details` is injective in the title (other fields fixed). -/
theorem car_details_inj_name (d y k t t' : String)
    (h : car_details d t y k = car_details d t' y k) : t = t' := by
  unfold car_details at h
  have hd := congrArg String.data h
  simp only [String.data_append, List.append_assoc] at hd
  exact String.ext
    (List.append_cancel_right (List.append_cancel_left (List.append_cancel_left hd)))

/-- `car_details` is injective in the model year (other fields fixed). -/
theorem car_details_inj_year (d t k y y' : String)
    (h : car_details d t y k = car_details d t y' k) : y = y' := by
  unfold car_details at h
  have hd := congrArg String.data h
  simp only [String.data_append, List.append_assoc] at hd
  exact String.ext
    (List.append_cancel_right (List.append_cancel_left (List.append_cancel_left
      (List.append_cancel_left (List.append_cancel_left hd)))))

/-- `car_details` is injective in the mileage text (other fields fixed). -/
theorem car_details_inj_km (d t y k k' : String)
    (h : car_details d t y k = car_details d t y k') : k = k' := by
  unfold car_details at h
  have hd := congrArg String.data h
  simp only [String.data_append, List.append_assoc] at hd
  exact String.ext
    (List.append_cancel_left (List.append_cancel_left (List.append_cancel_left
      (List.append_cancel_left (List.append_cancel_left (List.append_cancel_left hd))))))

/-- `car_details` is injective in the dealer code (other fields fixed). -/
theorem car_details_inj_dealer (t y k d d' : String)
    (h : car_details d t y k = car_details d' t y k) : d = d' := by
  unfold car_details at h
  have hd := congrArg String.data h
  simp only [String.data_append, List.append_assoc] at hd
  exact String.ext (List.append_cancel_right hd)

/-- C4 counterexample: "differing one of the four input fields changes
the identifier" fails in principle: md5 maps infinitely many titles
into a 2^128-value digest space, so two distinct titles (all other
fields held fixed) share a fingerprint. -/
theorem fingerprint_injective_counterexample :
    ∃ t1 t2 : String, t1 ≠ t2 ∧
      fingerprint "D1" t1 "2020" "100,000 Km"
        = fingerprint "D1" t2 "2020" "100,000 Km" := by
  have hbound : ∀ t : String,
      bytesToNat (md5Bytes (utf8Encode (car_details "D1" t "2020" "100,000 Km")))
        < 256 ^ 16 := by
    intro t
    have h1 := bytesToNat_lt _ (md5Bytes_lt (utf8Encode (car_details "D1" t "2020" "100,000 Km")))
    rwa [md5Bytes_length] at h1
  obtain ⟨t1, t2, hne, heq⟩ := Finite.exists_ne_map_eq_of_infinite
    (fun t : String =>
      (⟨bytesToNat (md5Bytes (utf8Encode (car_details "D1" t "2020" "100,000 Km"))),
        hbound t⟩ : Fin (256 ^ 16)))
  refine ⟨t1, t2, hne, ?_⟩
  have hval := congrArg Fin.val heq
  have hbytes : md5Bytes (utf8Encode (car_details "D1" t1 "2020" "100,000 Km"))
      = md5Bytes (utf8Encode (car_details "D1" t2 "2020" "100,000 Km")) :=
    bytesToNat_inj _ _ (by rw [md5Bytes_length, md5Bytes_length])
      (md5Bytes_lt _) (md5Bytes_lt _) hval
  show hexOfBytes (md5Bytes (utf8Encode (car_details "D1" t1 "2020" "100,000 Km")))
      = hexOfBytes (md5Bytes (utf8Encode (car_details "D1" t2 "2020" "100,000 Km")))
  exact congrArg hexOfBytes hbytes

/-- C4 amended: the fingerprint is a pure function of exactly
(dealerCode, title, modelYear, mileageText): records differing only in
price, posting time, location or link collide on purpose; both adapters
derive the identifier by the same function of the same four fields; and
differing any one input field (others fixed) changes the digest input
`car_details` — hence the identifier, except for the astronomically
unlikely event of an MD5 collision, which exists in principle
(`fingerprint_injective_counterexample`). -/
theorem fingerprint_amended :
    (∀ d t t' y k, t ≠ t' → car_details d t y k ≠ car_details d t' y k) ∧
    (∀ d t y y' k, y ≠ y' → car_details d t y k ≠ car_details d t y' k) ∧
    (∀ d t y k k', k ≠ k' → car_details d t y k ≠ car_details d t y k') ∧
    (∀ d d' t y k, d ≠ d' → car_details d t y k ≠ car_details d' t y k) ∧
    (∀ (dc ct1 ct2 : String) (c1 c2 : DubizzleCard),
      c1.nameElem = c2.nameElem → c1.yearElem = c2.yearElem → c1.kmElem = c2.kmElem →
      (scrapeDubizzleCard dc ct1 c1).map (fun r => r.car_id)
        = (scrapeDubizzleCard dc ct2 c2).map (fun r => r.car_id)) ∧
    (∀ (dc ct : String) (c : DubizzleCard) (r : CarRow),
      scrapeDubizzleCard dc ct c = some r →
      r.car_id = fingerprint dc r.name r.year r.km) ∧
    (∀ (dc ct : String) (ord : ℤ) (c : H2Card) (r : CarRow),
      scrapeH2Card dc ct ord c = some r →
      r.car_id = fingerprint dc r.name r.year r.km) := by
  refine ⟨fun d t t' y k hne h => hne (car_details_inj_name d y k t t' h),
    fun d t y y' k hne h => hne (car_details_inj_year d t k y y' h),
    fun d t y k k' hne h => hne (car_details_inj_km d t y k k' h),
    fun d d' t y k hne h => hne (car_details_inj_dealer t y k d d' h),
    ?_, ?_, ?_⟩
  · intro dc ct1 ct2 c1 c2 hn hy hk
    simp only [scrapeDubizzleCard, Option.map_map]
    rw [hn, hy, hk]
    rfl
  · intro dc ct c r hr
    simp only [scrapeDubizzleCard] at hr
    obtain ⟨brand, hb, rfl⟩ := Option.map_eq_some'.mp hr
    rfl
  · intro dc ct ord c r hr
    simp only [scrapeH2Card] at hr
    obtain ⟨brand, hb, rfl⟩ := Option.map_eq_some'.mp hr
    rfl

/-- Witness for `fingerprint_amended`: one-field changes alter the
digest input; dubizzle cards differing only in price, time, location
and link share an identifier; both adapters' records carry the
fingerprint of their own four fields. -/
theorem fingerprint_amended_witness :
    car_details "D1" "A" "2020" "1 Km" ≠ car_details "D1" "B" "2020" "1 Km" ∧
    car_details "D1" "A" "2020" "1 Km" ≠ car_details "D1" "A" "2021" "1 Km" ∧
    car_details "D1" "A" "2020" "1 Km" ≠ car_details "D1" "A" "2020" "2 Km" ∧
    car_details "D1" "A" "2020" "1 Km" ≠ car_details "D2" "A" "2020" "1 Km" ∧
    (scrapeDubizzleCard "D1" "t1" wCard1).map (fun r => r.car_id)
      = (scrapeDubizzleCard "D1" "t2" wCard2).map (fun r => r.car_id) ∧
    rD.car_id = fingerprint "D1" rD.name rD.year rD.km ∧
    rH.car_id = fingerprint "D1" rH.name rH.year rH.km :=
  ⟨fingerprint_amended.1 "D1" "A" "B" "2020" "1 Km" (by decide),
    fingerprint_amended.2.1 "D1" "A" "2020" "2021" "1 Km" (by decide),
    fingerprint_amended.2.2.1 "D1" "A" "2020" "1 Km" "2 Km" (by decide),
    fingerprint_amended.2.2.2.1 "D1" "D2" "A" "2020" "1 Km" (by decide),
    fingerprint_amended.2.2.2.2.1 "D1" "t1" "t2" wCard1 wCard2 rfl rfl rfl,
    fingerprint_amended.2.2.2.2.2.1 "D1" "t" dEmptyCard rD rfl,
    fingerprint_amended.2.2.2.2.2.2 "D1" "t" 0 hEmptyCard rH rfl⟩

/-- Witness for `adapter_missing_field_amended`: both all-missing cards
extract to full records with every field at its default. -/
theorem adapter_missing_field_amended_witness :
    (scrapeDubizzleCard "D1" "t" dEmptyCard).isSome = true ∧
    (scrapeH2Card "D1" "t" 0 hEmptyCard).isSome = true ∧
    (rD.name = "N/A" ∧ rD.price = "N/A" ∧ rD.km = "N/A" ∧ rD.year = "N/A" ∧
      rD.location = "N/A" ∧ (rD.listed = "N/A" ∧ rD.days = .na) ∧ rD.url = "N/A") ∧
    ((rH.name = "N/A" ∧ rH.url = "") ∧ rH.price = "N/A" ∧ rH.km = "N/A" ∧
      rH.location = "N/A" ∧ rH.year = "N/A" ∧ (rH.listed = "N/A" ∧ rH.days = .na)) := by
  have hD := adapter_missing_field_amended.1 "D1" "t" dEmptyCard rD rfl
  have hH := adapter_missing_field_amended.2.2.1 "D1" "t" 0 hEmptyCard rH rfl
  refine ⟨adapter_missing_field_amended.2.1 "D1" "t" dEmptyCard rfl,
    adapter_missing_field_amended.2.2.2 "D1" "t" 0 hEmptyCard rfl,
    ⟨hD.1 rfl, (hD.2).1 rfl, hD.2.2.1 rfl, hD.2.2.2.1 rfl, hD.2.2.2.2.1 rfl,
      hD.2.2.2.2.2.1 rfl, hD.2.2.2.2.2.2 rfl⟩,
    ⟨hH.1 rfl, hH.2.1 rfl, hH.2.2.1 (by simp [hEmptyCard]),
      hH.2.2.2.1 (by simp [hEmptyCard]), hH.2.2.2.2.1 (by rfl),
      hH.2.2.2.2.2 rfl⟩⟩

end Dubizzler
